import Mathlib

/-!
# Verification of the bulk-import-export-api core

Shallow embedding of the asynchronous import pipeline, record validator,
repository bulk-insert, job scheduler and HTTP import handler of the
`bulk-import-export-api` Go repository, together with proofs settling the
frozen claims about its specification.

External collaborators of the repository (the database driver, `time.Parse`,
`encoding/json`, `github.com/google/uuid`) are abstracted as explicit
function parameters or outcome oracles, exactly at the call sites where the
Go code invokes them.  Everything else is translated from the source.
-/

namespace BulkIE

/-! ## Data model (`internal/models`) -/

/-- `validation.ValidationError`: a single violation as produced by the
validator (no line number; `Value` is `interface{}` in Go but every site
stores a `string` or leaves it unset, so it is modelled as `Option String`). -/
structure VErr where
  field : String
  message : String
  value : Option String := none
deriving DecidableEq, Repr

/-- `models.ValidationError`: a violation as buffered and persisted by
the import pipeline, carrying the 1-based line number. -/
structure MVErr where
  line : Nat
  field : String
  message : String
  value : Option String := none
deriving DecidableEq, Repr

/-- `models.UserCSV`: a user record as read from one CSV row. -/
structure UserCSV where
  id : String
  email : String
  name : String
  role : String
  active : String
  created_at : String
  updated_at : String
deriving DecidableEq, Repr

/-- `models.User` (storage shape produced by `convertCSVToUser`).
`time.Time` instants are abstracted as the raw strings they were parsed
from; `convertCSVToUser` ignores parse errors, so no information relevant
to the claims is lost. -/
structure User where
  id : String
  email : String
  name : String
  role : String
  active : Bool
  created_at : String
deriving DecidableEq, Repr

/-- `models.ArticleNDJSON`: an article record as decoded from one NDJSON line. -/
structure ArticleNDJSON where
  id : String := ""
  slug : String := ""
  title : String := ""
  body : String := ""
  author_id : String := ""
  tags : List String := []
  status : String := ""
  published_at : String := ""
deriving DecidableEq, Repr

/-- `models.Article` (storage shape produced by `convertNDJSONToArticle`),
instants abstracted as their source strings. -/
structure Article where
  id : String
  slug : String
  title : String
  body : String
  author_id : String
  tags : List String
  status : String
  published_at : Option String
deriving DecidableEq, Repr

/-- `models.CommentNDJSON`: a comment record as decoded from one NDJSON line. -/
structure CommentNDJSON where
  id : String := ""
  article_id : String := ""
  user_id : String := ""
  body : String := ""
  created_at : String := ""
deriving DecidableEq, Repr

/-- `models.Comment` (storage shape produced by `convertNDJSONToComment`). -/
structure Comment where
  id : String
  article_id : String
  user_id : String
  body : String
  created_at : String
deriving DecidableEq, Repr

/-- `models.ValidRoles`. -/
def ValidRoles (r : String) : Bool :=
  r == "admin" || r == "editor" || r == "viewer"

/-- `models.ValidStatuses`. -/
def ValidStatuses (s : String) : Bool :=
  s == "draft" || s == "published"

/-- `models.MaxCommentWords`. -/
def MaxCommentWords : Nat := 500

/-! ## In-repository string helpers

`emailRegex` and `slugRegex` are compiled literally in
`internal/validation/validator.go`; they are embedded as executable
matchers.  `strings.TrimSpace` / `strings.HasPrefix` / `strings.ToLower`
are Go standard-library calls: `TrimSpace` is embedded over the Latin-1
whitespace set of `unicode.IsSpace` (the repository's inputs are within
it), `HasPrefix` as list prefix, and `ToLower` character-wise (ASCII-faithful
for the repository's inputs). -/

/-- `unicode.IsSpace`, restricted to the Latin-1 range. -/
def goIsSpace (c : Char) : Bool :=
  c == ' ' || c == '\t' || c == '\n' || c == (Char.ofNat 11) ||
  c == (Char.ofNat 12) || c == '\r' || c == (Char.ofNat 0x85) ||
  c == (Char.ofNat 0xA0)

/-- `strings.TrimSpace`: drop leading and trailing whitespace. -/
def goTrimSpace (s : String) : String :=
  ⟨((s.data.dropWhile goIsSpace).reverse.dropWhile goIsSpace).reverse⟩

/-- `strings.ToLower`, character-wise (ASCII-faithful; the repository's
column names, emails and extensions are ASCII). -/
def goToLower (s : String) : String :=
  ⟨s.data.map Char.toLower⟩

/-- `strings.HasPrefix`. -/
def goHasPrefix (s pre : String) : Bool :=
  pre.data.isPrefixOf s.data

/-- Character class `[a-zA-Z0-9._%+-]` (local part of `emailRegex`). -/
def emailLocalChar (c : Char) : Bool :=
  c.isAlpha || c.isDigit || c == '.' || c == '_' || c == '%' || c == '+' || c == '-'

/-- Character class `[a-zA-Z0-9.-]` (domain part of `emailRegex`). -/
def emailDomainChar (c : Char) : Bool :=
  c.isAlpha || c.isDigit || c == '.' || c == '-'

/-- Matcher for the anchored `emailRegex`
`^[a-zA-Z0-9._%+-]+@[a-zA-Z0-9.-]+\.[a-zA-Z]{2,}$`.  Neither character
class contains `@`, so a match splits the string at its unique `@`; the
domain matches iff some `.` splits it into a non-empty `[a-zA-Z0-9.-]+`
prefix and an all-alphabetic suffix of length at least 2. -/
def emailDomainMatch (d : List Char) : Bool :=
  (List.range d.length).any fun i =>
    decide (1 ≤ i) && (d.take i).all emailDomainChar &&
      d.get? i == some '.' &&
      decide (2 ≤ (d.drop (i+1)).length) && (d.drop (i+1)).all Char.isAlpha

/-- `emailRegex.MatchString`. -/
def emailMatch (s : String) : Bool :=
  match s.data.splitOn '@' with
  | [l, d] => !l.isEmpty && l.all emailLocalChar && emailDomainMatch d
  | _ => false

/-- Character class `[a-z0-9]` of `slugRegex`. -/
def slugChar (c : Char) : Bool :=
  c.isLower || c.isDigit

/-- `slugRegex.MatchString` for `^[a-z0-9]+(?:-[a-z0-9]+)*$`: the string
splits on `-` into non-empty groups of lowercase alphanumerics. -/
def slugMatch (s : String) : Bool :=
  (s.data.splitOn '-').all (fun seg => !seg.isEmpty && seg.all slugChar)

/-! ## Record validator (`internal/validation/validator.go`)

The Go `Validator` owns four `map[string]bool` sets; only membership and
non-emptiness are ever consulted, so each set is modelled as a `List String`
(insertion appends, lookup is `contains`).  `uuid.Parse` of
`github.com/google/uuid` and `time.Parse(time.RFC3339, ·)` are external
libraries; their success predicates are passed in as `uuidOk` and `rfcOk`.
`strings.Fields` word counting (only used for comment bodies) is likewise
abstracted as `wordCount`.  The Go validators receive a `lineNum` argument
they never read; it is omitted. -/

/-- `validation.Validator`: the four per-job caches. -/
structure Validator where
  userEmailCache : List String := []
  articleSlugCache : List String := []
  userIDCache : List String := []
  articleIDCache : List String := []
deriving DecidableEq, Repr

/-- `NewValidator`. -/
def NewValidator : Validator := {}

/-- `(*Validator).SetUserIDCache`: insert every id into the user-id cache. -/
def Validator.setUserIDCache (v : Validator) (ids : List String) : Validator :=
  { v with userIDCache := v.userIDCache ++ ids }

/-- `(*Validator).SetArticleIDCache`. -/
def Validator.setArticleIDCache (v : Validator) (ids : List String) : Validator :=
  { v with articleIDCache := v.articleIDCache ++ ids }

/-- `(*Validator).AddUserEmail`: lowercased email added to the uniqueness cache. -/
def Validator.addUserEmail (v : Validator) (email : String) : Validator :=
  { v with userEmailCache := v.userEmailCache ++ [goToLower email] }

/-- `(*Validator).AddArticleSlug`. -/
def Validator.addArticleSlug (v : Validator) (slug : String) : Validator :=
  { v with articleSlugCache := v.articleSlugCache ++ [slug] }

/-- `(*Validator).AddUserID`. -/
def Validator.addUserID (v : Validator) (id : String) : Validator :=
  { v with userIDCache := v.userIDCache ++ [id] }

/-- `(*Validator).AddArticleID`. -/
def Validator.addArticleID (v : Validator) (id : String) : Validator :=
  { v with articleIDCache := v.articleIDCache ++ [id] }

/-- `(*Validator).ValidateUser`, block by block in source order; each Go
`errors = append(errors, e)` becomes one list element of the concatenation. -/
def ValidateUser (uuidOk rfcOk : String → Bool) (v : Validator)
    (user : UserCSV) : List VErr :=
  (if user.id == "" then [⟨"id", "id is required", none⟩]
   else if !uuidOk user.id then [⟨"id", "invalid UUID format", some user.id⟩]
   else []) ++
  (if user.email == "" then [⟨"email", "email is required", none⟩]
   else if !emailMatch user.email then
     [⟨"email", "invalid email format", some user.email⟩]
   else if v.userEmailCache.contains (goToLower user.email) then
     [⟨"email", "duplicate email", some user.email⟩]
   else []) ++
  (if user.name == "" then [⟨"name", "name is required", none⟩] else []) ++
  (if user.role == "" then [⟨"role", "role is required", none⟩]
   else if !ValidRoles user.role then
     [⟨"role", "invalid role, must be one of: admin, editor, viewer", some user.role⟩]
   else []) ++
  (if user.active != "" && user.active != "true" && user.active != "false" then
     [⟨"active", "active must be 'true' or 'false'", some user.active⟩]
   else []) ++
  (if user.created_at == "" then [⟨"created_at", "created_at is required", none⟩]
   else if !rfcOk user.created_at then
     [⟨"created_at", "invalid ISO 8601 date format", some user.created_at⟩]
   else [])

/-- `(*Validator).ValidateArticle`, block by block in source order. -/
def ValidateArticle (uuidOk rfcOk : String → Bool) (v : Validator)
    (a : ArticleNDJSON) : List VErr :=
  (if a.id == "" then [⟨"id", "id is required", none⟩]
   else if !uuidOk a.id then [⟨"id", "invalid UUID format", some a.id⟩]
   else []) ++
  (if a.slug == "" then [⟨"slug", "slug is required", none⟩]
   else if !slugMatch a.slug then
     [⟨"slug", "slug must be kebab-case (lowercase letters, numbers, hyphens)", some a.slug⟩]
   else if v.articleSlugCache.contains a.slug then
     [⟨"slug", "duplicate slug", some a.slug⟩]
   else []) ++
  (if a.title == "" then [⟨"title", "title is required", none⟩] else []) ++
  (if a.body == "" then [⟨"body", "body is required", none⟩] else []) ++
  (if a.author_id == "" then [⟨"author_id", "author_id is required", none⟩]
   else if !uuidOk a.author_id then
     [⟨"author_id", "invalid UUID format", some a.author_id⟩]
   else if !v.userIDCache.isEmpty && !v.userIDCache.contains a.author_id then
     [⟨"author_id", "referenced user does not exist", some a.author_id⟩]
   else []) ++
  (if a.status != "" && !ValidStatuses a.status then
     [⟨"status", "invalid status, must be one of: draft, published", some a.status⟩]
   else []) ++
  (if a.status == "draft" && a.published_at != "" then
     [⟨"published_at", "draft articles must not have published_at", none⟩]
   else []) ++
  (if a.published_at != "" then
     (if !rfcOk a.published_at then
        [⟨"published_at", "invalid ISO 8601 date format", some a.published_at⟩]
      else [])
   else [])

/-- `(*Validator).ValidateComment`, block by block in source order. -/
def ValidateComment (uuidOk rfcOk : String → Bool) (wordCount : String → Nat)
    (v : Validator) (c : CommentNDJSON) : List VErr :=
  (if c.id == "" then [⟨"id", "id is required", none⟩]
   else if !uuidOk c.id && !goHasPrefix c.id "cm_" then
     [⟨"id", "invalid ID format", some c.id⟩]
   else []) ++
  (if c.article_id == "" then [⟨"article_id", "article_id is required", none⟩]
   else if !uuidOk c.article_id then
     [⟨"article_id", "invalid UUID format", some c.article_id⟩]
   else if !v.articleIDCache.isEmpty && !v.articleIDCache.contains c.article_id then
     [⟨"article_id", "referenced article does not exist", some c.article_id⟩]
   else []) ++
  (if c.user_id == "" then [⟨"user_id", "user_id is required", none⟩]
   else if !uuidOk c.user_id then
     [⟨"user_id", "invalid UUID format", some c.user_id⟩]
   else if !v.userIDCache.isEmpty && !v.userIDCache.contains c.user_id then
     [⟨"user_id", "referenced user does not exist", some c.user_id⟩]
   else []) ++
  (if c.body == "" then [⟨"body", "body is required", none⟩]
   else if wordCount c.body > MaxCommentWords then
     [⟨"body", "body exceeds maximum of "
         ++ toString MaxCommentWords ++ " words (has "
         ++ toString (wordCount c.body) ++ ")", none⟩]
   else []) ++
  (if c.created_at == "" then [⟨"created_at", "created_at is required", none⟩]
   else if !rfcOk c.created_at then
     [⟨"created_at", "invalid ISO 8601 date format", some c.created_at⟩]
   else [])

/-! ## Record conversion helpers (`import_service.go`) -/

/-- `convertCSVToUser`: `Active` becomes `csv.Active == "true"`; the
`created_at` instant is kept as its source string (Go parses it and
discards any error). -/
def convertCSVToUser (csv : UserCSV) : User :=
  { id := csv.id, email := csv.email, name := csv.name, role := csv.role,
    active := csv.active == "true", created_at := csv.created_at }

/-- `convertNDJSONToArticle`: empty status defaults to `"draft"`;
`published_at` is set only when the source string is non-empty. -/
def convertNDJSONToArticle (n : ArticleNDJSON) : Article :=
  { id := n.id, slug := n.slug, title := n.title, body := n.body,
    author_id := n.author_id, tags := n.tags,
    status := if n.status == "" then "draft" else n.status,
    published_at := if n.published_at != "" then some n.published_at else none }

/-- `convertNDJSONToComment`. -/
def convertNDJSONToComment (n : CommentNDJSON) : Comment :=
  { id := n.id, article_id := n.article_id, user_id := n.user_id,
    body := n.body, created_at := n.created_at }

/-! ## CSV header map and field lookup (`processUsersCSV`, `getField`)

The Go `headerMap` is a `map[string]int` built by iterating the header row
and assigning `headerMap[lower(trim(h))] = i`; a duplicate column name
overwrites the earlier index.  It is modelled as the association list of
`(lower (trim h), i)` pairs in header order, looked up by *last* match. -/

/-- The `headerMap` built from the header row. -/
def buildHeaderMap (header : List String) : List (String × Nat) :=
  header.enum.map (fun p => (goToLower (goTrimSpace p.2), p.1))

/-- Go map lookup against the association list: the last binding wins,
returning `none` when the key was never bound. -/
def lookupHeader (hm : List (String × Nat)) (field : String) : Option Nat :=
  ((hm.filter (fun p => p.1 == field)).getLast?).map (fun p => p.2)

/-- `getField`: the whitespace-trimmed cell at the column's index when the
column is present and its index is inside the row, `""` otherwise. -/
def getField (record : List String) (hm : List (String × Nat))
    (field : String) : String :=
  match lookupHeader hm field with
  | some idx => if h : idx < record.length then goTrimSpace (record.get ⟨idx, h⟩) else ""
  | none => ""

/-! ## Repository bulk insert (`(*userRepo).BatchInsert`,
`(*articleRepo).BatchInsert`, `(*commentRepo).BatchInsert`)

All three repositories share one code shape: begin a transaction, prepare a
`pq.CopyIn` statement, submit each row with `stmt.ExecContext` (a failing
row is skipped with `continue` and not counted), flush the COPY with a
final `ExecContext`, and commit.  The driver and database are external:
each call's outcome is an oracle (`beginOk`, `prepOk`, `execOk i` for the
`i`-th row, `flushOk`, `commitOk`).  The function returns the Go result
`(inserted, err)` together with the rows persisted to the table: on any
error path the deferred `tx.Rollback()` leaves nothing persisted; on commit
the successfully submitted rows are persisted. -/

/-- Result of `BatchInsert`: `ok inserted` or an error. -/
inductive BatchResult where
  | ok (inserted : Nat)
  | err
deriving DecidableEq, Repr

/-- The shared `BatchInsert` body. Returns (Go result, rows persisted). -/
def batchInsertGo (beginOk prepOk : Bool) (execOk : Nat → Bool)
    (flushOk commitOk : Bool) (rows : List α) : BatchResult × List α :=
  if rows.isEmpty then (.ok 0, [])
  else if !beginOk then (.err, [])
  else if !prepOk then (.err, [])
  else
    let accepted := (rows.enum.filter (fun p => execOk p.1)).map (fun p => p.2)
    if !flushOk then (.err, [])
    else if !commitOk then (.err, [])
    else (.ok accepted.length, accepted)

/-! ## Import pipelines (`internal/service/import_service.go`)

`processUsersCSV`, `processArticlesNDJSON` and `processCommentsNDJSON` are
embedded as recursions over the delivered input lines.  External effects
are oracles:

* `ctx : Nat → Bool` — whether `ctx.Done()` is closed when the cancellation
  checkpoint fires at a given `lineNum` (the Go `select` with `default`);
* `bi : Nat → List σ → BatchResult` — the result of the `k`-th
  `BatchInsert` call on the given batch (the repository boundary);
* for NDJSON, `parse : String → Except String ρ` — `json.Unmarshal`, the
  error carrying the `%v` detail interpolated into `"invalid JSON: …"`.

`repos.Job.AddErrors` appends to the per-job error store; the store is part
of the pipeline state (`store`).  The state also carries a ghost field
`log` that records every validation error the run ever generated — it is
written exactly where the Go code appends to `validationErrors` and is
never read by the model, existing only so theorems can speak about "the
errors that occurred". -/

/-- The four job counters (`models.Job`). -/
structure Cnt where
  total : Nat := 0
  processed : Nat := 0
  successful : Nat := 0
  failed : Nat := 0
deriving DecidableEq, Repr

/-- Pipeline state over storage-shape records `σ`. -/
structure PState (σ : Type) where
  cnt : Cnt := {}
  v : Validator := NewValidator
  batch : List σ := []
  buf : List MVErr := []
  store : List MVErr := []
  log : List MVErr := []
  lineNum : Nat := 0
  calls : Nat := 0
deriving Repr

/-- `errorFlushThreshold` (import_service.go). -/
def errorFlushThreshold : Nat := 1000

/-- The batch block shared verbatim by the three pipelines: call
`BatchInsert`, credit `successful` with the returned count on success or
`failed` with the whole batch on error, advance `processed` by the batch
size either way, and clear the batch. -/
def insertBatch (bi : Nat → List σ → BatchResult) (s : PState σ) : PState σ :=
  match bi s.calls s.batch with
  | .ok n =>
      { s with cnt := { s.cnt with successful := s.cnt.successful + n,
                                   processed := s.cnt.processed + s.batch.length },
               batch := [], calls := s.calls + 1 }
  | .err =>
      { s with cnt := { s.cnt with failed := s.cnt.failed + s.batch.length,
                                   processed := s.cnt.processed + s.batch.length },
               batch := [], calls := s.calls + 1 }

/-- The failed-record block shared by the three pipelines: count the record
failed and processed, buffer its errors under `line`, and flush the buffer
to the store when it has reached `errorFlushThreshold`
(`flushValidationErrors` truncates the buffer unconditionally). -/
def recordFailure (errs : List MVErr) (s : PState σ) : PState σ :=
  if errorFlushThreshold ≤ (s.buf ++ errs).length then
    { s with cnt := { s.cnt with failed := s.cnt.failed + 1,
                                 processed := s.cnt.processed + 1 },
             store := s.store ++ (s.buf ++ errs), buf := [],
             log := s.log ++ errs }
  else
    { s with cnt := { s.cnt with failed := s.cnt.failed + 1,
                                 processed := s.cnt.processed + 1 },
             buf := s.buf ++ errs, log := s.log ++ errs }

/-- Tag a validator error list with the current line number
(`models.ValidationError{Line: lineNum, …}`). -/
def atLine (line : Nat) (errs : List VErr) : List MVErr :=
  errs.map fun e => ⟨line, e.field, e.message, e.value⟩

/-- `lineNum++; job.TotalRecords++` at the head of a counted record. -/
def bumpTotal (s : PState σ) : PState σ :=
  { s with lineNum := s.lineNum + 1,
           cnt := { s.cnt with total := s.cnt.total + 1 } }

/-- `lineNum++` alone (an NDJSON blank line: skipped before counting). -/
def bumpLine (s : PState σ) : PState σ :=
  { s with lineNum := s.lineNum + 1 }

/-- The accepted-record block of `processUsersCSV`: append the converted
user to the batch, then `AddUserEmail` / `AddUserID`. -/
def acceptUser (u : UserCSV) (s : PState User) : PState User :=
  { s with batch := s.batch ++ [convertCSVToUser u],
           v := (s.v.addUserEmail u.email).addUserID u.id }

/-- The accepted-record block of the NDJSON pipelines: append the converted
record to the batch and update the caches (`accept`). -/
def acceptRecord (accept : Validator → ρ → Validator) (convert : ρ → σ)
    (r : ρ) (s : PState σ) : PState σ :=
  { s with batch := s.batch ++ [convert r], v := accept s.v r }

/-- `if len(batch) >= batchSize { … BatchInsert … }`. -/
def maybeInsert (bi : Nat → List σ → BatchResult) (batchSize : Nat)
    (s : PState σ) : PState σ :=
  if batchSize ≤ s.batch.length then insertBatch bi s else s

/-- Outcome of processing one input line: continue the loop, or return at
the cancellation checkpoint. -/
inductive StepRes (σ : Type) where
  | cont (s : PState σ)
  | cancel (s : PState σ)
deriving Repr

/-- The state carried by either outcome. -/
def StepRes.state : StepRes σ → PState σ
  | .cont s => s
  | .cancel s => s

/-- The `UserCSV` struct literal built by `processUsersCSV` out of one
parsed row via `getField`. -/
def mkUserCSV (record : List String) (hm : List (String × Nat)) : UserCSV :=
  { id := getField record hm "id", email := getField record hm "email",
    name := getField record hm "name", role := getField record hm "role",
    active := getField record hm "active",
    created_at := getField record hm "created_at",
    updated_at := getField record hm "updated_at" }

/-- One iteration of the `processUsersCSV` row loop on a successfully
parsed CSV row: count it, hit the every-10,000-lines cancellation
checkpoint, validate, and either accept into the batch (inserting on
threshold) or record the failure. -/
def usersStep (uuidOk rfcOk : String → Bool) (ctx : Nat → Bool)
    (bi : Nat → List User → BatchResult) (batchSize : Nat)
    (hm : List (String × Nat)) (record : List String) (s : PState User) :
    StepRes User :=
  if (s.lineNum + 1) % 10000 == 0 && ctx (s.lineNum + 1) then
    .cancel (bumpTotal s)
  else if (ValidateUser uuidOk rfcOk s.v (mkUserCSV record hm)).isEmpty then
    .cont (maybeInsert bi batchSize (acceptUser (mkUserCSV record hm) (bumpTotal s)))
  else
    .cont (recordFailure
      (atLine (s.lineNum + 1) (ValidateUser uuidOk rfcOk s.v (mkUserCSV record hm)))
      (bumpTotal s))

/-- The per-row loop of `processUsersCSV`.  A `none` row is a
`reader.Read()` error: skipped with `continue` before `lineNum` or any
counter moves.  Returns the state and whether the loop returned at a
cancellation checkpoint. -/
def usersLoop (uuidOk rfcOk : String → Bool) (ctx : Nat → Bool)
    (bi : Nat → List User → BatchResult) (batchSize : Nat)
    (hm : List (String × Nat)) :
    List (Option (List String)) → PState User → PState User × Bool
  | [], s => (s, false)
  | none :: rest, s => usersLoop uuidOk rfcOk ctx bi batchSize hm rest s
  | some record :: rest, s =>
    match usersStep uuidOk rfcOk ctx bi batchSize hm record s with
    | .cancel s1 => (s1, true)
    | .cont s1 => usersLoop uuidOk rfcOk ctx bi batchSize hm rest s1

/-- The final `if len(validationErrors) > 0 { AddErrors(…) }`: append the
remaining buffered errors to the store; the Go local slice is not
truncated there. -/
def flushStore (s : PState σ) : PState σ :=
  if s.buf.isEmpty then s else { s with store := s.store ++ s.buf }

/-- Pipeline finalization shared by the three pipelines: insert the
remainder batch if non-empty, then write out remaining buffered errors. -/
def finalizePipeline (bi : Nat → List σ → BatchResult) (s : PState σ) : PState σ :=
  flushStore (if s.batch.isEmpty then s else insertBatch bi s)

/-- Outcome of one pipeline run: final state, whether it returned at a
cancellation checkpoint, and whether `scanner.Err()` was non-nil at the
end (NDJSON pipelines; always `false` for CSV, which skips bad rows). -/
structure PipeOutcome (σ : Type) where
  state : PState σ
  cancelled : Bool
  scanFailed : Bool
deriving Repr

/-- `processUsersCSV` given the staged file's parsed header and rows. -/
def runUsersCSV (uuidOk rfcOk : String → Bool) (ctx : Nat → Bool)
    (bi : Nat → List User → BatchResult) (batchSize : Nat)
    (header : List String) (rows : List (Option (List String))) :
    PipeOutcome User :=
  match usersLoop uuidOk rfcOk ctx bi batchSize (buildHeaderMap header) rows
      { lineNum := 1 } with
  | (s, true) => ⟨s, true, false⟩
  | (s, false) => ⟨finalizePipeline bi s, false, false⟩

/-- One iteration of the NDJSON line loop shared by
`processArticlesNDJSON` and `processCommentsNDJSON`: advance `lineNum`,
skip blank lines, count the record, hit the cancellation checkpoint,
`json.Unmarshal`, validate, and either accept into the batch (inserting on
threshold) or record the failure. -/
def ndjsonStep (parse : String → Except String ρ)
    (validate : Validator → ρ → List VErr)
    (accept : Validator → ρ → Validator) (convert : ρ → σ)
    (ctx : Nat → Bool) (bi : Nat → List σ → BatchResult) (batchSize : Nat)
    (l : String) (s : PState σ) : StepRes σ :=
  if goTrimSpace l == "" then .cont (bumpLine s)
  else if (s.lineNum + 1) % 10000 == 0 && ctx (s.lineNum + 1) then
    .cancel (bumpTotal s)
  else
    match parse l with
    | .error detail =>
      .cont (recordFailure
        [⟨s.lineNum + 1, "json", "invalid JSON: " ++ detail, none⟩] (bumpTotal s))
    | .ok r =>
      if (validate s.v r).isEmpty then
        .cont (maybeInsert bi batchSize (acceptRecord accept convert r (bumpTotal s)))
      else
        .cont (recordFailure
          (atLine (s.lineNum + 1) (validate s.v r)) (bumpTotal s))

/-- The per-line loop shared by `processArticlesNDJSON` and
`processCommentsNDJSON` (the two Go functions are line-for-line identical
up to the record type, validator entry point and cache updates, which are
the `parse` / `validate` / `accept` / `convert` parameters). -/
def ndjsonLoop (parse : String → Except String ρ)
    (validate : Validator → ρ → List VErr)
    (accept : Validator → ρ → Validator) (convert : ρ → σ)
    (ctx : Nat → Bool) (bi : Nat → List σ → BatchResult) (batchSize : Nat) :
    List String → PState σ → PState σ × Bool
  | [], s => (s, false)
  | l :: rest, s =>
    match ndjsonStep parse validate accept convert ctx bi batchSize l s with
    | .cancel s1 => (s1, true)
    | .cont s1 => ndjsonLoop parse validate accept convert ctx bi batchSize rest s1

/-- FK pre-load of `processArticlesNDJSON`: user ids are loaded only when
strictly fewer than 100,000 were enumerated. -/
def articlesPreload (userIDs : List String) : Validator :=
  if userIDs.length < 100000 then NewValidator.setUserIDCache userIDs
  else NewValidator

/-- FK pre-load of `processCommentsNDJSON`: user and article ids each
loaded only when strictly fewer than 100,000 were enumerated. -/
def commentsPreload (userIDs articleIDs : List String) : Validator :=
  let v := NewValidator
  let v := if userIDs.length < 100000 then v.setUserIDCache userIDs else v
  if articleIDs.length < 100000 then v.setArticleIDCache articleIDs else v

/-- Generic NDJSON pipeline: pre-loaded validator, loop, finalize;
`scanErr` is whether `scanner.Err()` was non-nil after the delivered lines. -/
def runNDJSON (parse : String → Except String ρ)
    (validate : Validator → ρ → List VErr)
    (accept : Validator → ρ → Validator) (convert : ρ → σ)
    (v0 : Validator) (ctx : Nat → Bool) (bi : Nat → List σ → BatchResult)
    (batchSize : Nat) (lines : List String) (scanErr : Bool) :
    PipeOutcome σ :=
  match ndjsonLoop parse validate accept convert ctx bi batchSize lines
      { v := v0, lineNum := 0 } with
  | (s, true) => ⟨s, true, false⟩
  | (s, false) => ⟨finalizePipeline bi s, false, scanErr⟩

/-- `processArticlesNDJSON`. -/
def runArticlesNDJSON (uuidOk rfcOk : String → Bool)
    (parse : String → Except String ArticleNDJSON)
    (userIDs : List String) (ctx : Nat → Bool)
    (bi : Nat → List Article → BatchResult) (batchSize : Nat)
    (lines : List String) (scanErr : Bool) : PipeOutcome Article :=
  runNDJSON parse (ValidateArticle uuidOk rfcOk)
    (fun v a => (v.addArticleSlug a.slug).addArticleID a.id)
    convertNDJSONToArticle (articlesPreload userIDs) ctx bi batchSize lines scanErr

/-- `processCommentsNDJSON` (no cache updates after acceptance). -/
def runCommentsNDJSON (uuidOk rfcOk : String → Bool)
    (wordCount : String → Nat) (parse : String → Except String CommentNDJSON)
    (userIDs articleIDs : List String) (ctx : Nat → Bool)
    (bi : Nat → List Comment → BatchResult) (batchSize : Nat)
    (lines : List String) (scanErr : Bool) : PipeOutcome Comment :=
  runNDJSON parse (ValidateComment uuidOk rfcOk wordCount)
    (fun v _ => v) convertNDJSONToComment
    (commentsPreload userIDs articleIDs) ctx bi batchSize lines scanErr

/-- `models.JobStatus`. -/
inductive JobStatus where
  | pending | processing | completed | failed | cancelled
deriving DecidableEq, Repr

/-- `ProcessImport` finalization: the job ends `failed` when the pipeline
returned an error (cancellation or scanner error), else `completed`. -/
def jobFinalStatus (o : PipeOutcome σ) : JobStatus :=
  if o.cancelled || o.scanFailed then .failed else .completed

/-! ## Job scheduler (`jobService`, `jobRepo.MarkJobAsProcessing`)

`newJobService` sizes the worker semaphore from `runtime.NumCPU()`;
`processPendingJobs` claims each pending job with the atomic SQL
`UPDATE jobs SET status='processing' WHERE id=$2 AND status='pending'`.
The store is a list of job rows; a claim is one atomic store transition,
and a concurrent history of claims is a list of such transitions (each
`UPDATE` is atomic, so any interleaving is some sequence). -/

/-- The `maxWorkers` computation of `newJobService`. -/
def maxWorkersCalc (numCPU : Nat) : Nat :=
  let w := numCPU * 4
  let w := if w < 4 then 4 else w
  if w > 32 then 32 else w

/-- A `jobs` row as seen by the scheduler. -/
structure SchedJob where
  id : String
  status : JobStatus
deriving DecidableEq, Repr

/-- `(*jobRepo).MarkJobAsProcessing`: flip every `(id, pending)` row to
`processing`; the Go function returns `rows > 0` from `RowsAffected`. -/
def markJobAsProcessing (st : List SchedJob) (jobID : String) :
    List SchedJob × Bool :=
  let affected := st.countP fun j => j.id == jobID && j.status == .pending
  (st.map fun j =>
      if j.id == jobID && j.status == .pending then { j with status := .processing }
      else j,
   decide (0 < affected))

/-- Number of successful claims of `target` along a history of claim
attempts (each entry is the job id some worker tries to claim). -/
def claimSuccesses (target : String) : List String → List SchedJob → Nat
  | [], _ => 0
  | a :: rest, st =>
    let (st', won) := markJobAsProcessing st a
    (if a == target && won then 1 else 0) + claimSuccesses target rest st'

/-- One transition of the worker semaphore (`sem chan struct{}` with
capacity `cap`): an acquire (`sem <- struct{}{}`) completes only while
fewer than `cap` slots are held, a release (`<-sem`) only while a slot is
held; `none` marks an event that cannot complete (the goroutine blocks). -/
def semStep (cap held : Nat) : Bool → Option Nat
  | true => if held < cap then some (held + 1) else none
  | false => if 0 < held then some (held - 1) else none

/-- Run a history of completed semaphore events from `held` slots. -/
def semRun (cap : Nat) : List Bool → Nat → Option Nat
  | [], h => some h
  | e :: rest, h =>
    match semStep cap h e with
    | some h' => semRun cap rest h'
    | none => none

/-! ## Import HTTP handler (`(*ImportHandler).CreateImport`) and job store

The handler is embedded over a relational job store: a list of job rows
whose `idempotency_key` column carries the `UNIQUE` constraint of
migration 004 (an empty key is `NULL` and never conflicts, via
`nullString`).  Filesystem staging (`os.MkdirAll`/`os.Create`/`io.Copy`)
is assumed to succeed; the `file_url` JSON branch (501) and the fallible
`GetJobByIdempotencyKey` error branch (which only logs) are outside the
model.  `staged` records whether the request wrote a staged upload file. -/

/-- A `jobs` row as the handler sees it. -/
structure HJob where
  id : String
  idemKey : String
  resource : String
  status : JobStatus
deriving DecidableEq, Repr

/-- `(*jobRepo).GetByIdempotencyKey`: `SELECT … WHERE idempotency_key = $1`
(under the unique constraint at most one row matches). -/
def getJobByIdemKey (store : List HJob) (key : String) : Option HJob :=
  store.find? fun j => j.idemKey == key

/-- `(*jobRepo).Create`: `INSERT INTO jobs …` — rejected by the unique
constraint when a non-empty idempotency key is already present. -/
def jobCreate (store : List HJob) (j : HJob) : Option (List HJob) :=
  if j.idemKey != "" && store.any (fun x => x.idemKey == j.idemKey) then none
  else some (store ++ [j])

/-- `filepath.Ext`: the suffix beginning at the final dot (`""` if none);
upload filenames contain no path separators. -/
def goFilepathExt (name : String) : String :=
  let rev := name.data.reverse
  let suffix := rev.takeWhile (fun c => c ≠ '.')
  if suffix.length == rev.length then "" else ⟨'.' :: suffix.reverse⟩

/-- The handler's resource membership test. -/
def validResource (r : String) : Bool :=
  r == "users" || r == "articles" || r == "comments"

/-- Handler response (status codes as in the Go handler). -/
inductive HResp where
  | okExisting (j : HJob)      -- 200: prior job for the idempotency key
  | accepted (j : HJob)        -- 202: job created and queued
  | badRequest (msg : String)  -- 400
  | serverError (msg : String) -- 500
deriving DecidableEq, Repr

/-- Result of one `CreateImport` request. -/
structure HOut where
  resp : HResp
  store : List HJob
  staged : Bool
deriving DecidableEq, Repr

/-- `(*ImportHandler).CreateImport`, branch for branch in source order:
idempotency short-circuit, resource checks, upload size check, extension
check, staging, job creation. -/
def createImport (store : List HJob) (key resource filename : String)
    (fileSize maxUpload : Nat) (newID : String) : HOut :=
  match (if key == "" then none else getJobByIdemKey store key) with
  | some j => ⟨.okExisting j, store, false⟩
  | none =>
    if resource == "" then
      ⟨.badRequest "resource parameter is required (users, articles, comments)",
       store, false⟩
    else if !validResource resource then
      ⟨.badRequest "resource must be one of: users, articles, comments", store, false⟩
    else if maxUpload < fileSize then
      ⟨.badRequest "file too large", store, false⟩
    else
      if resource == "users" && goToLower (goFilepathExt filename) != ".csv" then
        ⟨.badRequest "users import requires CSV file", store, false⟩
      else if (resource == "articles" || resource == "comments")
          && goToLower (goFilepathExt filename) != ".ndjson"
          && goToLower (goFilepathExt filename) != ".json" then
        ⟨.badRequest "articles/comments import requires NDJSON file", store, false⟩
      else
        match jobCreate store ⟨newID, key, resource, .pending⟩ with
        | none => ⟨.serverError "failed to create import job", store, true⟩
        | some store2 => ⟨.accepted ⟨newID, key, resource, .pending⟩, store2, true⟩

/-! ## Users NDJSON export (`streamUsersNDJSON`) -/

/-- `streamUsersNDJSON`: one `json.Marshal(user)` (the external encoder,
passed as `marshal`) plus a newline byte per streamed user, in store
order; returns the written lines and the final `count`. -/
def exportUsersNDJSON (marshal : User → String) (users : List User) :
    List String × Nat :=
  (users.map (fun u => marshal u ++ "\n"), users.length)

/-- The filename under which the users NDJSON export is served
(`Content-Disposition: attachment; filename=users.ndjson`). -/
def usersExportFilename : String := "users.ndjson"

/-- Shorthand for the counter invariant of §8 of the spec. -/
def cntInv (c : Cnt) : Prop := c.processed = c.successful + c.failed

instance : DecidablePred cntInv := fun c => by
  unfold cntInv; infer_instance

/-! ## Auxiliary notions for the proofs

`bufInv` relates the error store, the in-memory buffer and the ghost log;
the `c3…` definitions name the concrete pipeline states reached on the
10,000-line input used in the cancellation analysis. -/

/-- Everything logged is either already in the store or still buffered. -/
def bufInv (s : PState σ) : Prop := s.store ++ s.buf = s.log

/-- Initial pipeline state of the cancellation analysis (empty FK cache). -/
def c3s0 : PState Article := { v := articlesPreload [], lineNum := 0 }

/-- One article-pipeline step with the cancellation-analysis oracles: every
line parses to the empty record, the context is done from line 10,000 on. -/
def c3step (l : String) (s : PState Article) : StepRes Article :=
  ndjsonStep (fun _ => .ok {}) (ValidateArticle (fun _ => true) (fun _ => true))
    (fun v a => (v.addArticleSlug a.slug).addArticleID a.id)
    convertNDJSONToArticle (fun n => n == 10000) (fun _ _ => .err) 1000 l s

/-- The 9,998 blank filler lines. -/
def c3blanks : List String := List.replicate 9998 ""

/-- State after the first (invalid) record. -/
def c3s1 : PState Article := (c3step "x" c3s0).state

/-- That state arrived at line 9,999 after the blank filler lines. -/
def c3s2 : PState Article := { c3s1 with lineNum := c3s1.lineNum + 9998 }

end BulkIE

namespace BulkIE

/-! ## Helper lemmas

Invariant-preservation facts about the scheduler store, the handler, and
the pipeline building blocks, used by the claim theorems below. -/

lemma mark_countP_zero (st : List SchedJob) (target : String) :
    ((markJobAsProcessing st target).1).countP
      (fun j => j.id == target && j.status == .pending) = 0 := by
  rw [List.countP_eq_zero]
  intro j hj
  rcases List.mem_map.mp hj with ⟨y, -, rfl⟩
  split_ifs with hy
  · simp
  · simpa using hy

lemma mark_countP_other (st : List SchedJob) (a target : String) (hne : a ≠ target) :
    ((markJobAsProcessing st a).1).countP
        (fun j => j.id == target && j.status == .pending) =
      st.countP (fun j => j.id == target && j.status == .pending) := by
  unfold markJobAsProcessing
  rw [List.countP_map]
  apply List.countP_congr
  intro j _
  simp only [Function.comp_apply]
  split_ifs with hj
  · have hja : j.id = a := by
      simp only [Bool.and_eq_true, beq_iff_eq] at hj
      exact hj.1
    simp [hja, hne]
  · rfl

lemma claimSuccesses_of_none (target : String) (att : List String) :
    ∀ st : List SchedJob,
      st.countP (fun j => j.id == target && j.status == .pending) = 0 →
      claimSuccesses target att st = 0 := by
  induction att with
  | nil => intro st _; rfl
  | cons a rest ih =>
    intro st hz
    rcases hmk : markJobAsProcessing st a with ⟨st2, won⟩
    by_cases ha : a = target
    · subst ha
      have hwon : won = false := by
        have : (markJobAsProcessing st a).2 = false := by
          unfold markJobAsProcessing
          simp [hz]
        rw [hmk] at this
        exact this
      have hz2 : st2.countP (fun j => j.id == a && j.status == .pending) = 0 := by
        have := mark_countP_zero st a
        rw [hmk] at this
        exact this
      simp [claimSuccesses, hmk, hwon, ih st2 hz2]
    · have hz2 : st2.countP (fun j => j.id == target && j.status == .pending) = 0 := by
        have := mark_countP_other st a target ha
        rw [hmk] at this
        rw [this]
        exact hz
      simp [claimSuccesses, hmk, ha, ih st2 hz2]

lemma claimSuccesses_le_one (target : String) (att : List String) :
    ∀ st : List SchedJob, claimSuccesses target att st ≤ 1 := by
  induction att with
  | nil => intro st; simp [claimSuccesses]
  | cons a rest ih =>
    intro st
    rcases hmk : markJobAsProcessing st a with ⟨st2, won⟩
    by_cases hcase : a = target ∧ won = true
    · rcases hcase with ⟨rfl, rfl⟩
      have hz2 : st2.countP (fun j => j.id == a && j.status == .pending) = 0 := by
        have := mark_countP_zero st a
        rw [hmk] at this
        exact this
      simp [claimSuccesses, hmk, claimSuccesses_of_none a rest st2 hz2]
    · have hhead : (if a == target && won then 1 else 0) = 0 := by
        rcases Bool.eq_false_or_eq_true won with hw | hw
        · have hane : a ≠ target := fun he => hcase ⟨he, hw⟩
          simp [hane]
        · simp [hw]
      calc claimSuccesses target (a :: rest) st
          = (if a == target && won then 1 else 0) + claimSuccesses target rest st2 := by
            simp [claimSuccesses, hmk]
        _ ≤ 1 := by rw [hhead]; simpa using ih st2

lemma claimSuccesses_pending_mem (target : String) (att : List String) :
    ∀ st : List SchedJob,
      0 < st.countP (fun j => j.id == target && j.status == .pending) →
      target ∈ att → claimSuccesses target att st = 1 := by
  induction att with
  | nil => intro st _ hmem; cases hmem
  | cons a rest ih =>
    intro st hpos hmem
    rcases hmk : markJobAsProcessing st a with ⟨st2, won⟩
    by_cases ha : a = target
    · subst ha
      have hwon : won = true := by
        have : (markJobAsProcessing st a).2 = true := by
          unfold markJobAsProcessing
          simpa using hpos
        rw [hmk] at this
        exact this
      have hz2 : st2.countP (fun j => j.id == a && j.status == .pending) = 0 := by
        have := mark_countP_zero st a
        rw [hmk] at this
        exact this
      simp [claimSuccesses, hmk, hwon, claimSuccesses_of_none a rest st2 hz2]
    · have hpos2 : 0 < st2.countP (fun j => j.id == target && j.status == .pending) := by
        have := mark_countP_other st a target ha
        rw [hmk] at this
        rw [this]
        exact hpos
      have hmem2 : target ∈ rest := by
        rcases List.mem_cons.mp hmem with h | h
        · exact absurd h.symm ha
        · exact h
      simp [claimSuccesses, hmk, ha, ih st2 hpos2 hmem2]

lemma semRun_le (cap : Nat) (evs : List Bool) :
    ∀ h0 h : Nat, h0 ≤ cap → semRun cap evs h0 = some h → h ≤ cap := by
  induction evs with
  | nil => intro h0 h hle hrun; cases hrun; exact hle
  | cons e rest ih =>
    intro h0 h hle hrun
    cases e <;> simp only [semRun, semStep] at hrun <;> split_ifs at hrun with hg
    all_goals exact ih _ _ (by omega) hrun

lemma createImport_okExisting (S : List HJob) (k r f id : String)
    (sz mx : Nat) (hk : k ≠ "") (j : HJob) (hj : getJobByIdemKey S k = some j) :
    createImport S k r f sz mx id = ⟨.okExisting j, S, false⟩ := by
  unfold createImport
  rw [if_neg (by simp [hk]), hj]

lemma createImport_store_cases (S : List HJob) (k r f id : String)
    (sz mx : Nat) (hk : k ≠ "") :
    (createImport S k r f sz mx id).store = S ∨
    (S.countP (fun j => j.idemKey == k) = 0 ∧
      (createImport S k r f sz mx id).store = S ++ [⟨id, k, r, .pending⟩]) := by
  unfold createImport
  cases hlook : (if k == "" then none else getJobByIdemKey S k) with
  | some j => exact .inl rfl
  | none =>
    simp only []
    split_ifs with h1 h2 h3 h4 h5
    · exact .inl rfl
    · exact .inl rfl
    · exact .inl rfl
    · exact .inl rfl
    · exact .inl rfl
    · unfold jobCreate
      split_ifs with h6
      · exact .inl rfl
      · refine .inr ⟨?_, rfl⟩
        rw [List.countP_eq_zero]
        intro j hj
        by_contra hpj
        apply h6
        rw [Bool.and_eq_true]
        refine ⟨by simp [hk], ?_⟩
        rw [List.any_eq_true]
        exact ⟨j, hj, by simpa using hpj⟩

lemma createImport_accepted (S : List HJob) (k r f id : String)
    (sz mx : Nat) (j : HJob) (out : HOut)
    (heq : createImport S k r f sz mx id = out)
    (hacc : out.resp = .accepted j) :
    j = ⟨id, k, r, .pending⟩ ∧ out.store = S ++ [j] := by
  unfold createImport at heq
  split at heq
  · subst heq; exact absurd hacc (by simp)
  · split_ifs at heq with h1 h2 h3 h4 h5
    · subst heq; exact absurd hacc (by simp)
    · subst heq; exact absurd hacc (by simp)
    · subst heq; exact absurd hacc (by simp)
    · subst heq; exact absurd hacc (by simp)
    · subst heq; exact absurd hacc (by simp)
    · split at heq
      · subst heq; exact absurd hacc (by simp)
      · next store2 hcreate =>
          subst heq
          have hj : j = ⟨id, k, r, .pending⟩ := by
            simpa using hacc.symm
          have hst : store2 = S ++ [(⟨id, k, r, .pending⟩ : HJob)] := by
            unfold jobCreate at hcreate
            split_ifs at hcreate
            simpa using hcreate.symm
          exact ⟨hj, by rw [hj, hst]⟩

lemma bumpTotal_cnt {s : PState σ} (h : cntInv s.cnt) : cntInv (bumpTotal s).cnt := by
  unfold cntInv bumpTotal at *
  exact h

lemma bumpLine_cnt {s : PState σ} (h : cntInv s.cnt) : cntInv (bumpLine s).cnt := h

lemma recordFailure_cnt {s : PState σ} (errs : List MVErr)
    (h : cntInv s.cnt) : cntInv (recordFailure errs s).cnt := by
  unfold cntInv recordFailure at *
  split_ifs <;> simp <;> omega

lemma insertBatch_cnt {bi : Nat → List σ → BatchResult}
    (hbi : ∀ k b n, bi k b = .ok n → n = b.length) {s : PState σ}
    (h : cntInv s.cnt) : cntInv (insertBatch bi s).cnt := by
  unfold cntInv insertBatch at *
  cases hb : bi s.calls s.batch with
  | ok n =>
    have hn := hbi _ _ _ hb
    simp
    omega
  | err =>
    simp
    omega

lemma maybeInsert_cnt {bi : Nat → List σ → BatchResult}
    (hbi : ∀ k b n, bi k b = .ok n → n = b.length) (batchSize : Nat)
    {s : PState σ} (h : cntInv s.cnt) : cntInv (maybeInsert bi batchSize s).cnt := by
  unfold maybeInsert
  split_ifs
  · exact insertBatch_cnt hbi h
  · exact h

lemma acceptUser_cnt {s : PState User} (u : UserCSV) (h : cntInv s.cnt) :
    cntInv (acceptUser u s).cnt := h

lemma acceptRecord_cnt {accept : Validator → ρ → Validator} {convert : ρ → σ}
    {s : PState σ} (r : ρ) (h : cntInv s.cnt) :
    cntInv (acceptRecord accept convert r s).cnt := h

lemma usersStep_cnt (uuidOk rfcOk : String → Bool) (ctx : Nat → Bool)
    (bi : Nat → List User → BatchResult) (batchSize : Nat)
    (hm : List (String × Nat)) (record : List String) (s : PState User)
    (hbi : ∀ k b n, bi k b = .ok n → n = b.length)
    (h : cntInv s.cnt) :
    cntInv (usersStep uuidOk rfcOk ctx bi batchSize hm record s).state.cnt := by
  unfold usersStep
  split_ifs
  · exact bumpTotal_cnt h
  · exact maybeInsert_cnt hbi batchSize (acceptUser_cnt _ (bumpTotal_cnt h))
  · exact recordFailure_cnt _ (bumpTotal_cnt h)

lemma ndjsonStep_cnt (parse : String → Except String ρ)
    (validate : Validator → ρ → List VErr) (accept : Validator → ρ → Validator)
    (convert : ρ → σ) (ctx : Nat → Bool) (bi : Nat → List σ → BatchResult)
    (batchSize : Nat) (l : String) (s : PState σ)
    (hbi : ∀ k b n, bi k b = .ok n → n = b.length) (h : cntInv s.cnt) :
    cntInv (ndjsonStep parse validate accept convert ctx bi batchSize l s).state.cnt := by
  unfold ndjsonStep
  split_ifs
  · exact bumpLine_cnt h
  · exact bumpTotal_cnt h
  · cases parse l with
    | error d => exact recordFailure_cnt _ (bumpTotal_cnt h)
    | ok r =>
      simp only []
      split_ifs
      · exact maybeInsert_cnt hbi batchSize (acceptRecord_cnt _ (bumpTotal_cnt h))
      · exact recordFailure_cnt _ (bumpTotal_cnt h)

lemma usersLoop_cnt (uuidOk rfcOk : String → Bool) (ctx : Nat → Bool)
    (bi : Nat → List User → BatchResult) (batchSize : Nat)
    (hm : List (String × Nat))
    (hbi : ∀ k b n, bi k b = .ok n → n = b.length) :
    ∀ (rows : List (Option (List String))) (s : PState User), cntInv s.cnt →
      cntInv (usersLoop uuidOk rfcOk ctx bi batchSize hm rows s).1.cnt := by
  intro rows
  induction rows with
  | nil => intro s h; exact h
  | cons row rest ih =>
    intro s h
    cases row with
    | none => exact ih s h
    | some record =>
      have hstep := usersStep_cnt uuidOk rfcOk ctx bi batchSize hm record s
        hbi h
      cases hs : usersStep uuidOk rfcOk ctx bi batchSize hm record s with
      | cancel s1 =>
        rw [hs] at hstep
        simpa [usersLoop, hs] using hstep
      | cont s1 =>
        rw [hs] at hstep
        simpa [usersLoop, hs] using ih s1 hstep

lemma ndjsonLoop_cnt (parse : String → Except String ρ)
    (validate : Validator → ρ → List VErr) (accept : Validator → ρ → Validator)
    (convert : ρ → σ) (ctx : Nat → Bool) (bi : Nat → List σ → BatchResult)
    (batchSize : Nat)
    (hbi : ∀ k b n, bi k b = .ok n → n = b.length) :
    ∀ (lines : List String) (s : PState σ), cntInv s.cnt →
      cntInv (ndjsonLoop parse validate accept convert ctx bi batchSize lines s).1.cnt := by
  intro lines
  induction lines with
  | nil => intro s h; exact h
  | cons l rest ih =>
    intro s h
    have hstep := ndjsonStep_cnt parse validate accept convert ctx bi batchSize
      l s hbi h
    cases hs : ndjsonStep parse validate accept convert ctx bi batchSize l s with
    | cancel s1 =>
      rw [hs] at hstep
      simpa [ndjsonLoop, hs] using hstep
    | cont s1 =>
      rw [hs] at hstep
      simpa [ndjsonLoop, hs] using ih s1 hstep

lemma flushStore_cnt {s : PState σ} (h : cntInv s.cnt) : cntInv (flushStore s).cnt := by
  unfold flushStore
  split_ifs
  · exact h
  · exact h

lemma finalizePipeline_cnt {bi : Nat → List σ → BatchResult}
    (hbi : ∀ k b n, bi k b = .ok n → n = b.length) {s : PState σ}
    (h : cntInv s.cnt) : cntInv (finalizePipeline bi s).cnt := by
  unfold finalizePipeline
  apply flushStore_cnt
  split_ifs
  · exact h
  · exact insertBatch_cnt hbi h

lemma bumpTotal_buf {s : PState σ} (h : bufInv s) : bufInv (bumpTotal s) := h

lemma bumpLine_buf {s : PState σ} (h : bufInv s) : bufInv (bumpLine s) := h

lemma acceptUser_buf {s : PState User} (u : UserCSV) (h : bufInv s) :
    bufInv (acceptUser u s) := h

lemma acceptRecord_buf {accept : Validator → ρ → Validator} {convert : ρ → σ}
    {s : PState σ} (r : ρ) (h : bufInv s) :
    bufInv (acceptRecord accept convert r s) := h

lemma insertBatch_buf {bi : Nat → List σ → BatchResult} {s : PState σ}
    (h : bufInv s) : bufInv (insertBatch bi s) := by
  unfold bufInv insertBatch at *
  cases bi s.calls s.batch <;> exact h

lemma maybeInsert_buf {bi : Nat → List σ → BatchResult} {batchSize : Nat}
    {s : PState σ} (h : bufInv s) : bufInv (maybeInsert bi batchSize s) := by
  unfold maybeInsert
  split_ifs
  · exact insertBatch_buf h
  · exact h

lemma recordFailure_buf {s : PState σ} (errs : List MVErr)
    (h : bufInv s) : bufInv (recordFailure errs s) := by
  unfold bufInv recordFailure at *
  split_ifs <;> simp [← List.append_assoc, h]

lemma usersStep_buf (uuidOk rfcOk : String → Bool) (ctx : Nat → Bool)
    (bi : Nat → List User → BatchResult) (batchSize : Nat)
    (hm : List (String × Nat)) (record : List String) (s : PState User)
    (h : bufInv s) :
    bufInv (usersStep uuidOk rfcOk ctx bi batchSize hm record s).state := by
  unfold usersStep
  split_ifs
  · exact bumpTotal_buf h
  · exact maybeInsert_buf (acceptUser_buf _ (bumpTotal_buf h))
  · exact recordFailure_buf _ (bumpTotal_buf h)

lemma ndjsonStep_buf (parse : String → Except String ρ)
    (validate : Validator → ρ → List VErr) (accept : Validator → ρ → Validator)
    (convert : ρ → σ) (ctx : Nat → Bool) (bi : Nat → List σ → BatchResult)
    (batchSize : Nat) (l : String) (s : PState σ) (h : bufInv s) :
    bufInv (ndjsonStep parse validate accept convert ctx bi batchSize l s).state := by
  unfold ndjsonStep
  split_ifs
  · exact bumpLine_buf h
  · exact bumpTotal_buf h
  · cases parse l with
    | error d => exact recordFailure_buf _ (bumpTotal_buf h)
    | ok r =>
      simp only []
      split_ifs
      · exact maybeInsert_buf (acceptRecord_buf _ (bumpTotal_buf h))
      · exact recordFailure_buf _ (bumpTotal_buf h)

lemma usersLoop_buf (uuidOk rfcOk : String → Bool) (ctx : Nat → Bool)
    (bi : Nat → List User → BatchResult) (batchSize : Nat)
    (hm : List (String × Nat)) :
    ∀ (rows : List (Option (List String))) (s : PState User), bufInv s →
      bufInv (usersLoop uuidOk rfcOk ctx bi batchSize hm rows s).1 := by
  intro rows
  induction rows with
  | nil => intro s h; exact h
  | cons row rest ih =>
    intro s h
    cases row with
    | none => exact ih s h
    | some record =>
      have hstep := usersStep_buf uuidOk rfcOk ctx bi batchSize hm record s h
      cases hs : usersStep uuidOk rfcOk ctx bi batchSize hm record s with
      | cancel s1 =>
        rw [hs] at hstep
        simpa [usersLoop, hs] using hstep
      | cont s1 =>
        rw [hs] at hstep
        simpa [usersLoop, hs] using ih s1 hstep

lemma ndjsonLoop_buf (parse : String → Except String ρ)
    (validate : Validator → ρ → List VErr) (accept : Validator → ρ → Validator)
    (convert : ρ → σ) (ctx : Nat → Bool) (bi : Nat → List σ → BatchResult)
    (batchSize : Nat) :
    ∀ (lines : List String) (s : PState σ), bufInv s →
      bufInv (ndjsonLoop parse validate accept convert ctx bi batchSize lines s).1 := by
  intro lines
  induction lines with
  | nil => intro s h; exact h
  | cons l rest ih =>
    intro s h
    have hstep := ndjsonStep_buf parse validate accept convert ctx bi batchSize
      l s h
    cases hs : ndjsonStep parse validate accept convert ctx bi batchSize l s with
    | cancel s1 =>
      rw [hs] at hstep
      simpa [ndjsonLoop, hs] using hstep
    | cont s1 =>
      rw [hs] at hstep
      simpa [ndjsonLoop, hs] using ih s1 hstep

lemma finalizePipeline_store {bi : Nat → List σ → BatchResult} {s : PState σ}
    (h : bufInv s) :
    (finalizePipeline bi s).store = (finalizePipeline bi s).log := by
  unfold finalizePipeline
  have h1 : bufInv (if s.batch.isEmpty then s else insertBatch bi s) := by
    split_ifs
    · exact h
    · exact insertBatch_buf h
  generalize (if s.batch.isEmpty then s else insertBatch bi s) = s1 at h1
  unfold flushStore
  split_ifs with hb
  · unfold bufInv at h1
    rw [List.isEmpty_iff.mp hb, List.append_nil] at h1
    exact h1
  · exact h1

lemma ndjsonLoop_blank_skip {parse : String → Except String ρ}
    {validate : Validator → ρ → List VErr} {accept : Validator → ρ → Validator}
    {convert : ρ → σ} {ctx : Nat → Bool} {bi : Nat → List σ → BatchResult}
    {batchSize : Nat} :
    ∀ (n : Nat) (rest : List String) (s : PState σ),
      ndjsonLoop parse validate accept convert ctx bi batchSize
        (List.replicate n "" ++ rest) s =
      ndjsonLoop parse validate accept convert ctx bi batchSize rest
        { s with lineNum := s.lineNum + n } := by
  intro n
  induction n with
  | zero => intro rest s; rfl
  | succ k ih =>
    intro rest s
    have hstep : ndjsonStep parse validate accept convert ctx bi batchSize ""
        s = .cont (bumpLine s) := by
      unfold ndjsonStep
      rw [if_pos (by decide)]
    calc ndjsonLoop parse validate accept convert ctx bi batchSize
          (List.replicate (k + 1) "" ++ rest) s
        = ndjsonLoop parse validate accept convert ctx bi batchSize
            (List.replicate k "" ++ rest) (bumpLine s) := by
          rw [List.replicate_succ, List.cons_append]
          simp only [ndjsonLoop]
          rw [hstep]
      _ = ndjsonLoop parse validate accept convert ctx bi batchSize rest
            { s with lineNum := s.lineNum + (k + 1) } := by
          rw [ih rest (bumpLine s)]
          dsimp only [bumpLine]
          rw [show s.lineNum + 1 + k = s.lineNum + (k + 1) from by omega]

/-! ## The claims -/

/-- C1, counterexample: a one-record users import whose single `BatchInsert`
call runs the repository `BatchInsert` body with the row submission failing
but the COPY flush and commit succeeding returns inserted = 0 without error;
the job terminates `completed` with processed = 1 but successful + failed = 0,
so the claimed invariant fails for this batch-insert result. -/
theorem counters_break_on_partial_insert :
    (runUsersCSV (fun _ => true) (fun _ => true) (fun _ => false)
      (fun _ b => (batchInsertGo true true (fun _ => false) true true b).1) 1
      ["id", "email", "name", "role", "active", "created_at"]
      [some ["11111111-1111-1111-1111-111111111111", "a@x.io", "A", "admin",
        "true", "2024-01-01T00:00:00Z"]]).state.cnt =
      ⟨1, 1, 0, 0⟩ ∧
    jobFinalStatus (runUsersCSV (fun _ => true) (fun _ => true) (fun _ => false)
      (fun _ b => (batchInsertGo true true (fun _ => false) true true b).1) 1
      ["id", "email", "name", "role", "active", "created_at"]
      [some ["11111111-1111-1111-1111-111111111111", "a@x.io", "A", "admin",
        "true", "2024-01-01T00:00:00Z"]]) = .completed ∧
    ¬ cntInv (runUsersCSV (fun _ => true) (fun _ => true) (fun _ => false)
      (fun _ b => (batchInsertGo true true (fun _ => false) true true b).1) 1
      ["id", "email", "name", "role", "active", "created_at"]
      [some ["11111111-1111-1111-1111-111111111111", "a@x.io", "A", "admin",
        "true", "2024-01-01T00:00:00Z"]]).state.cnt := by
  refine ⟨by decide, by decide, by decide⟩

/-- C1, amended: for every import pipeline run — any input rows or lines,
batch size, validation outcomes and cancellation points — the final counters
satisfy processed = successful + failed, provided every error-free
`BatchInsert` result reports the whole submitted batch as inserted (the
repository contract; the actual `BatchInsert` body can violate it, see the
counterexample). -/
theorem pipelines_counter_invariant
    (uuidOk rfcOk : String → Bool) (wordCount : String → Nat)
    (ctxU ctxA ctxC : Nat → Bool)
    (parseA : String → Except String ArticleNDJSON)
    (parseC : String → Except String CommentNDJSON)
    (biU : Nat → List User → BatchResult)
    (biA : Nat → List Article → BatchResult)
    (biC : Nat → List Comment → BatchResult)
    (bsU bsA bsC : Nat) (header : List String)
    (rows : List (Option (List String)))
    (userIDs articleIDs : List String) (linesA linesC : List String)
    (seA seC : Bool)
    (hbU : ∀ k b n, biU k b = .ok n → n = b.length)
    (hbA : ∀ k b n, biA k b = .ok n → n = b.length)
    (hbC : ∀ k b n, biC k b = .ok n → n = b.length) :
    cntInv (runUsersCSV uuidOk rfcOk ctxU biU bsU header rows).state.cnt ∧
    cntInv (runArticlesNDJSON uuidOk rfcOk parseA userIDs ctxA biA bsA
      linesA seA).state.cnt ∧
    cntInv (runCommentsNDJSON uuidOk rfcOk wordCount parseC userIDs articleIDs
      ctxC biC bsC linesC seC).state.cnt := by
  refine ⟨?_, ?_, ?_⟩
  · unfold runUsersCSV
    split
    all_goals
      next s hrun =>
        have hloop := usersLoop_cnt uuidOk rfcOk ctxU biU bsU
          (buildHeaderMap header) hbU rows { lineNum := 1 }
          (by unfold cntInv; rfl)
        rw [hrun] at hloop
        first
          | exact hloop
          | exact finalizePipeline_cnt hbU hloop
  · unfold runArticlesNDJSON runNDJSON
    split
    all_goals
      next s hrun =>
        have hloop := ndjsonLoop_cnt parseA (ValidateArticle uuidOk rfcOk)
          (fun v a => (v.addArticleSlug a.slug).addArticleID a.id)
          convertNDJSONToArticle ctxA biA bsA hbA
          linesA { v := articlesPreload userIDs, lineNum := 0 }
          (by unfold cntInv; rfl)
        rw [hrun] at hloop
        first
          | exact hloop
          | exact finalizePipeline_cnt hbA hloop
  · unfold runCommentsNDJSON runNDJSON
    split
    all_goals
      next s hrun =>
        have hloop := ndjsonLoop_cnt parseC
          (ValidateComment uuidOk rfcOk wordCount)
          (fun v _ => v) convertNDJSONToComment ctxC biC bsC hbC linesC
          { v := commentsPreload userIDs articleIDs, lineNum := 0 }
          (by unfold cntInv; rfl)
        rw [hrun] at hloop
        first
          | exact hloop
          | exact finalizePipeline_cnt hbC hloop

/-- Witness for C1: the amended theorem applied at concrete one-record runs
of each pipeline with a contract-satisfying batch inserter. -/
theorem pipelines_counter_invariant_witness :
    cntInv (runUsersCSV (fun _ => true) (fun _ => true) (fun _ => false)
      (fun _ b => .ok b.length) 1000 ["id"] [some ["x"]]).state.cnt ∧
    cntInv (runArticlesNDJSON (fun _ => true) (fun _ => true) (fun _ => .ok {})
      [] (fun _ => false) (fun _ b => .ok b.length) 1000 ["y"] false).state.cnt ∧
    cntInv (runCommentsNDJSON (fun _ => true) (fun _ => true) (fun _ => 1)
      (fun _ => .ok {}) [] [] (fun _ => false) (fun _ b => .ok b.length) 1000
      ["z"] false).state.cnt :=
  pipelines_counter_invariant (fun _ => true) (fun _ => true) (fun _ => 1)
    (fun _ => false) (fun _ => false) (fun _ => false)
    (fun _ => .ok {}) (fun _ => .ok {})
    (fun _ b => .ok b.length) (fun _ b => .ok b.length) (fun _ b => .ok b.length)
    1000 1000 1000 ["id"] [some ["x"]] [] [] ["y"] ["z"] false false
    (fun _ _ _ h => by injection h with h2; exact h2.symm)
    (fun _ _ _ h => by injection h with h2; exact h2.symm)
    (fun _ _ _ h => by injection h with h2; exact h2.symm)

/-- C2, counterexample: a two-user batch where the first row submission
fails while begin, prepare, COPY flush and commit succeed returns
`(inserted = 1, no error)` with only the second row persisted — partial
success is reported, and 1 is not the batch length 2. -/
theorem batchInsert_partial_success :
    batchInsertGo true true (fun i => decide (i ≠ 0)) true true
      [(⟨"11111111-1111-1111-1111-111111111111", "a@x.io", "A", "admin", true,
        "2024-01-01T00:00:00Z"⟩ : User),
       ⟨"22222222-2222-2222-2222-222222222222", "b@x.io", "B", "editor", true,
        "2024-01-01T00:00:00Z"⟩] =
      (.ok 1,
       [⟨"22222222-2222-2222-2222-222222222222", "b@x.io", "B", "editor", true,
        "2024-01-01T00:00:00Z"⟩]) ∧
    (1 : Nat) ≠ 2 := by
  decide

/-- C2, amended: the shared `BatchInsert` body is atomic on the error side —
an error return persists nothing (the deferred rollback) — and on an
error-free return the reported count equals the number of persisted rows,
which form a sublist of the batch and equal the whole batch when every row
submission succeeds; partial success can be reported when a row submission
fails but the COPY flush and commit succeed. -/
theorem batchInsert_atomicity (beginOk prepOk flushOk commitOk : Bool)
    (execOk : Nat → Bool) (rows : List α) :
    ((batchInsertGo beginOk prepOk execOk flushOk commitOk rows).1 = .err →
      (batchInsertGo beginOk prepOk execOk flushOk commitOk rows).2 = []) ∧
    (∀ n, (batchInsertGo beginOk prepOk execOk flushOk commitOk rows).1 = .ok n →
      n = (batchInsertGo beginOk prepOk execOk flushOk commitOk rows).2.length ∧
      (batchInsertGo beginOk prepOk execOk flushOk commitOk rows).2.Sublist rows) ∧
    ((∀ i, execOk i = true) →
      (batchInsertGo beginOk prepOk execOk flushOk commitOk rows).1 = .err ∨
      ((batchInsertGo beginOk prepOk execOk flushOk commitOk rows).1 = .ok rows.length ∧
        (batchInsertGo beginOk prepOk execOk flushOk commitOk rows).2 = rows)) := by
  have key : (batchInsertGo beginOk prepOk execOk flushOk commitOk rows = (.ok 0, []) ∧ rows = [])
      ∨ batchInsertGo beginOk prepOk execOk flushOk commitOk rows = (.err, [])
      ∨ batchInsertGo beginOk prepOk execOk flushOk commitOk rows =
          (.ok ((rows.enum.filter (fun p => execOk p.1)).map Prod.snd).length,
           (rows.enum.filter (fun p => execOk p.1)).map Prod.snd) := by
    unfold batchInsertGo
    split_ifs with h1 h2 h3 h4 h5
    · exact .inl ⟨rfl, List.isEmpty_iff.mp h1⟩
    · exact .inr (.inl rfl)
    · exact .inr (.inl rfl)
    · exact .inr (.inl rfl)
    · exact .inr (.inl rfl)
    · exact .inr (.inr rfl)
  rcases key with ⟨hb, hrows⟩ | hb | hb <;> rw [hb]
  · subst hrows
    refine ⟨fun _ => rfl, fun n hn => ?_, fun _ => .inr ⟨rfl, rfl⟩⟩
    have : (0 : Nat) = n := by simpa using hn
    exact ⟨this.symm, List.nil_sublist _⟩
  · exact ⟨fun _ => rfl, fun n hn => absurd hn (by simp), fun _ => .inl rfl⟩
  · refine ⟨fun h => absurd h (by simp), fun n hn => ?_, fun hall => .inr ⟨?_, ?_⟩⟩
    · refine ⟨by simpa using hn.symm, ?_⟩
      have hsub : ((rows.enum.filter (fun p => execOk p.1)).map Prod.snd).Sublist
          (rows.enum.map Prod.snd) := (List.filter_sublist _).map _
      rwa [List.enum_map_snd] at hsub
    · have hfe : rows.enum.filter (fun p => execOk p.1) = rows.enum :=
        List.filter_eq_self.mpr (fun x _ => hall x.1)
      simp [hfe, List.enum_map_snd]
    · have hfe : rows.enum.filter (fun p => execOk p.1) = rows.enum :=
        List.filter_eq_self.mpr (fun x _ => hall x.1)
      simp [hfe, List.enum_map_snd]

/-- Witness for C2: the amended theorem applied with all oracles succeeding
on a concrete two-row batch yields full insertion. -/
theorem batchInsert_atomicity_witness :
    batchInsertGo true true (fun _ => true) true true ["a", "b"] =
      (.ok 2, ["a", "b"]) := by
  have h := (batchInsert_atomicity true true true true (fun _ => true)
    ["a", "b"]).2.2 (fun _ => rfl)
  rcases h with h | ⟨h1, h2⟩
  · exact absurd h (by decide)
  · exact Prod.ext (by simpa using h1) h2

/-- C3, counterexample: an articles import whose line 1 fails validation
(errors buffered, fewer than the 1,000 flush threshold) followed by 9,998
blank lines; at line 10,000 the cancellation checkpoint fires and the
pipeline returns immediately — the run is cancelled, the error store is
empty, yet the ghost log holds the line-1 validation error, so no error
with line = 1 was persisted. -/
theorem cancellation_drops_buffered_errors :
    (runArticlesNDJSON (fun _ => true) (fun _ => true) (fun _ => .ok {}) []
      (fun n => n == 10000) (fun _ _ => .err) 1000
      ("x" :: (c3blanks ++ ["x"])) false).cancelled = true ∧
    (runArticlesNDJSON (fun _ => true) (fun _ => true) (fun _ => .ok {}) []
      (fun n => n == 10000) (fun _ _ => .err) 1000
      ("x" :: (c3blanks ++ ["x"])) false).state.store = [] ∧
    (⟨1, "id", "id is required", none⟩ : MVErr) ∈
      (runArticlesNDJSON (fun _ => true) (fun _ => true) (fun _ => .ok {}) []
        (fun n => n == 10000) (fun _ _ => .err) 1000
        ("x" :: (c3blanks ++ ["x"])) false).state.log := by
  have hloop : ndjsonLoop (fun _ => .ok {})
      (ValidateArticle (fun _ => true) (fun _ => true))
      (fun v a => (v.addArticleSlug a.slug).addArticleID a.id)
      convertNDJSONToArticle (fun n => n == 10000) (fun _ _ => .err) 1000
      ("x" :: (c3blanks ++ ["x"])) c3s0 = ((c3step "x" c3s2).state, true) := by
    conv_lhs => rw [ndjsonLoop]
    rw [show ndjsonStep (fun _ => .ok {})
        (ValidateArticle (fun _ => true) (fun _ => true))
        (fun v a => (v.addArticleSlug a.slug).addArticleID a.id)
        convertNDJSONToArticle (fun n => n == 10000) (fun _ _ => .err) 1000
        "x" c3s0 = .cont c3s1 from rfl]
    rw [show c3blanks = List.replicate 9998 "" from rfl]
    dsimp only
    rw [ndjsonLoop_blank_skip 9998 ["x"] c3s1]
    rw [show ({ c3s1 with lineNum := c3s1.lineNum + 9998 } : PState Article) =
      c3s2 from rfl]
    conv_lhs => rw [ndjsonLoop]
    rw [show ndjsonStep (fun _ => .ok {})
        (ValidateArticle (fun _ => true) (fun _ => true))
        (fun v a => (v.addArticleSlug a.slug).addArticleID a.id)
        convertNDJSONToArticle (fun n => n == 10000) (fun _ _ => .err) 1000
        "x" c3s2 = .cancel ((c3step "x" c3s2).state) from rfl]
  have hout : runArticlesNDJSON (fun _ => true) (fun _ => true) (fun _ => .ok {})
      [] (fun n => n == 10000) (fun _ _ => .err) 1000
      ("x" :: (c3blanks ++ ["x"])) false =
      ⟨(c3step "x" c3s2).state, true, false⟩ := by
    unfold runArticlesNDJSON runNDJSON
    rw [show ndjsonLoop (fun _ => .ok {})
        (ValidateArticle (fun _ => true) (fun _ => true))
        (fun v a => (v.addArticleSlug a.slug).addArticleID a.id)
        convertNDJSONToArticle (fun n => n == 10000) (fun _ _ => .err) 1000
        ("x" :: (c3blanks ++ ["x"]))
        { v := articlesPreload [], lineNum := 0 } =
        ((c3step "x" c3s2).state, true) from hloop]
  rw [hout]
  refine ⟨rfl, by decide, by decide⟩

/-- C3, amended: for every pipeline run that does not return at a
cancellation checkpoint, the persisted error store equals the full log of
validation errors generated during the run — in particular every line that
failed validation has its errors persisted by the time the pipeline
returns.  On early cancellation the errors buffered since the last flush
are dropped (see the counterexample). -/
theorem pipelines_errors_persisted
    (uuidOk rfcOk : String → Bool) (wordCount : String → Nat)
    (ctxU ctxA ctxC : Nat → Bool)
    (parseA : String → Except String ArticleNDJSON)
    (parseC : String → Except String CommentNDJSON)
    (biU : Nat → List User → BatchResult)
    (biA : Nat → List Article → BatchResult)
    (biC : Nat → List Comment → BatchResult)
    (bsU bsA bsC : Nat) (header : List String)
    (rows : List (Option (List String)))
    (userIDs articleIDs : List String) (linesA linesC : List String)
    (seA seC : Bool) :
    ((runUsersCSV uuidOk rfcOk ctxU biU bsU header rows).cancelled = false →
      (runUsersCSV uuidOk rfcOk ctxU biU bsU header rows).state.store =
      (runUsersCSV uuidOk rfcOk ctxU biU bsU header rows).state.log) ∧
    ((runArticlesNDJSON uuidOk rfcOk parseA userIDs ctxA biA bsA linesA
        seA).cancelled = false →
      (runArticlesNDJSON uuidOk rfcOk parseA userIDs ctxA biA bsA linesA
        seA).state.store =
      (runArticlesNDJSON uuidOk rfcOk parseA userIDs ctxA biA bsA linesA
        seA).state.log) ∧
    ((runCommentsNDJSON uuidOk rfcOk wordCount parseC userIDs articleIDs ctxC
        biC bsC linesC seC).cancelled = false →
      (runCommentsNDJSON uuidOk rfcOk wordCount parseC userIDs articleIDs ctxC
        biC bsC linesC seC).state.store =
      (runCommentsNDJSON uuidOk rfcOk wordCount parseC userIDs articleIDs ctxC
        biC bsC linesC seC).state.log) := by
  refine ⟨?_, ?_, ?_⟩
  · unfold runUsersCSV
    split
    · intro hfalse; exact absurd hfalse (by simp)
    · next s hrun =>
        intro _
        have hloop := usersLoop_buf uuidOk rfcOk ctxU biU bsU
          (buildHeaderMap header) rows { lineNum := 1 } rfl
        rw [hrun] at hloop
        exact finalizePipeline_store hloop
  · unfold runArticlesNDJSON runNDJSON
    split
    · intro hfalse; exact absurd hfalse (by simp)
    · next s hrun =>
        intro _
        have hloop := ndjsonLoop_buf parseA (ValidateArticle uuidOk rfcOk)
          (fun v a => (v.addArticleSlug a.slug).addArticleID a.id)
          convertNDJSONToArticle ctxA biA bsA linesA
          { v := articlesPreload userIDs, lineNum := 0 } rfl
        rw [hrun] at hloop
        exact finalizePipeline_store hloop
  · unfold runCommentsNDJSON runNDJSON
    split
    · intro hfalse; exact absurd hfalse (by simp)
    · next s hrun =>
        intro _
        have hloop := ndjsonLoop_buf parseC
          (ValidateComment uuidOk rfcOk wordCount)
          (fun v _ => v) convertNDJSONToComment ctxC biC bsC linesC
          { v := commentsPreload userIDs articleIDs, lineNum := 0 } rfl
        rw [hrun] at hloop
        exact finalizePipeline_store hloop

/-- Witness for C3: the amended theorem applied to a concrete non-cancelled
one-record run of the users pipeline. -/
theorem pipelines_errors_persisted_witness :
    (runUsersCSV (fun _ => true) (fun _ => true) (fun _ => false)
        (fun _ b => .ok b.length) 1000 ["id"] [some ["x"]]).state.store =
    (runUsersCSV (fun _ => true) (fun _ => true) (fun _ => false)
        (fun _ b => .ok b.length) 1000 ["id"] [some ["x"]]).state.log :=
  (pipelines_errors_persisted (fun _ => true) (fun _ => true) (fun _ => 1)
    (fun _ => false) (fun _ => false) (fun _ => false)
    (fun _ => .ok {}) (fun _ => .ok {})
    (fun _ b => .ok b.length) (fun _ b => .ok b.length) (fun _ b => .ok b.length)
    1000 1000 1000 ["id"] [some ["x"]] [] [] [] [] false false).1 (by decide)

/-- C4: idempotency of `CreateImport`.  With a non-empty idempotency key:
any request that finds a prior job under the key returns exactly that job
with HTTP 200, leaves the job store unchanged and stages no file; across
two submissions with the same key starting from a store without the key,
at most one job with that key ever exists (the unique constraint blocks a
second insert); and when the first submission created a job, the second
returns that job unchanged, stages nothing and creates nothing. -/
theorem idempotency_single_job (S : List HJob) (k r1 f1 id1 r2 f2 id2 : String)
    (sz1 mx1 sz2 mx2 : Nat) (hk : k ≠ "")
    (h0 : S.countP (fun j => j.idemKey == k) = 0) :
    (∀ (T : List HJob) (j : HJob), getJobByIdemKey T k = some j →
      createImport T k r2 f2 sz2 mx2 id2 = ⟨.okExisting j, T, false⟩) ∧
    ((createImport (createImport S k r1 f1 sz1 mx1 id1).store k r2 f2 sz2 mx2
        id2).store.countP (fun j => j.idemKey == k) ≤ 1) ∧
    (∀ j, (createImport S k r1 f1 sz1 mx1 id1).resp = .accepted j →
      createImport (createImport S k r1 f1 sz1 mx1 id1).store k r2 f2 sz2 mx2 id2 =
        ⟨.okExisting j, (createImport S k r1 f1 sz1 mx1 id1).store, false⟩) := by
  refine ⟨fun T j hj => createImport_okExisting T k r2 f2 id2 sz2 mx2 hk j hj, ?_, ?_⟩
  · have hc1 : ((createImport S k r1 f1 sz1 mx1 id1).store.countP
        (fun j => j.idemKey == k)) ≤ 1 := by
      rcases createImport_store_cases S k r1 f1 id1 sz1 mx1 hk with h | ⟨hz, h⟩
      · rw [h, h0]; omega
      · rw [h, List.countP_append, h0]; simp
    rcases createImport_store_cases (createImport S k r1 f1 sz1 mx1 id1).store
        k r2 f2 id2 sz2 mx2 hk with h2 | ⟨hz2, h2⟩
    · rw [h2]; exact hc1
    · rw [h2, List.countP_append, hz2]; simp
  · intro j hacc
    obtain ⟨hj, hst⟩ := createImport_accepted S k r1 f1 id1 sz1 mx1 j _ rfl hacc
    have hfind : getJobByIdemKey (createImport S k r1 f1 sz1 mx1 id1).store k =
        some j := by
      rw [hst]
      unfold getJobByIdemKey
      rw [List.find?_append]
      have hnone : S.find? (fun x => x.idemKey == k) = none := by
        rw [List.find?_eq_none]
        intro x hx
        exact by simpa using (List.countP_eq_zero.mp h0) x hx
      rw [hnone]
      simp [hj]
    exact createImport_okExisting _ k r2 f2 id2 sz2 mx2 hk j hfind

/-- Witness for C4: the theorem applied to a concrete pair of submissions
with key "key". -/
theorem idempotency_single_job_witness :
    createImport [⟨"j1", "key", "users", .pending⟩] "key" "users" "b.csv" 1 500
        "j2" =
      ⟨.okExisting ⟨"j1", "key", "users", .pending⟩,
       [⟨"j1", "key", "users", .pending⟩], false⟩ ∧
    ((createImport (createImport [] "key" "users" "a.csv" 1 500 "j1").store
        "key" "users" "b.csv" 1 500 "j2").store.countP
      (fun j => j.idemKey == "key") ≤ 1) := by
  have h := idempotency_single_job [] "key" "users" "a.csv" "j1" "users" "b.csv"
    "j2" 1 500 1 500 (by decide) (by decide)
  exact ⟨h.1 [⟨"j1", "key", "users", .pending⟩] ⟨"j1", "key", "users", .pending⟩
    (by decide), h.2.1⟩

/-- C5, counterexample: a store with one user exports one NDJSON line
(count 1), but submitting the exported `users.ndjson` file as a users
upload is rejected with 400 ("users import requires CSV file"), creating
no job in the fresh store — the claimed successful count equal to the
exported count is unreachable because the import never runs. -/
theorem usersNDJSON_roundtrip_cex :
    (exportUsersNDJSON (fun _ => "row") [⟨"11111111-1111-1111-1111-111111111111",
      "a@x.io", "A", "admin", true, "2024-01-01T00:00:00Z"⟩]).2 = 1 ∧
    createImport [] "key1" "users" usersExportFilename 3 524288000 "job1" =
      ⟨.badRequest "users import requires CSV file", [], false⟩ := by
  decide

/-- C5, amended: exporting all users to NDJSON writes one line per stored
user and reports their number, but the users import endpoint accepts only
`.csv` files: submitting the exported `users.ndjson` into a fresh system is
rejected with 400, stages no file and creates no job, for every store and
idempotency key; with a `.csv` filename the same request is accepted. -/
theorem usersNDJSON_reimport (marshal : User → String) (users : List User)
    (k id : String) (sz mx : Nat) (hsz : sz ≤ mx) :
    (exportUsersNDJSON marshal users).2 = users.length ∧
    createImport [] k "users" usersExportFilename sz mx id =
      ⟨.badRequest "users import requires CSV file", [], false⟩ ∧
    (createImport [] k "users" "users.csv" sz mx id).resp =
      .accepted ⟨id, k, "users", .pending⟩ := by
  have hlook : (if k == "" then none else getJobByIdemKey [] k) = none := by
    cases h : (k == "") <;> simp [getJobByIdemKey]
  refine ⟨rfl, ?_, ?_⟩
  · unfold createImport
    rw [hlook]
    rw [if_neg (by decide), if_neg (by decide), if_neg (by omega),
      if_pos (by decide)]
  · unfold createImport
    rw [hlook]
    rw [if_neg (by decide), if_neg (by decide), if_neg (by omega),
      if_neg (by decide), if_neg (by decide)]
    unfold jobCreate
    rw [if_neg (by simp)]

/-- Witness for C5: the amended theorem applied at concrete sizes. -/
theorem usersNDJSON_reimport_witness :
    createImport [] "key1" "users" usersExportFilename 3 524288001 "job1" =
      ⟨.badRequest "users import requires CSV file", [], false⟩ :=
  (usersNDJSON_reimport (fun _ => "row") [] "key1" "job1" 3 524288001
    (by omega)).2.1

/-- C6, counterexample: an enumeration of exactly 100,000 user ids — a set
that does not exceed 100,000 entries — is NOT loaded: the articles-import
pre-load leaves the validator with an empty user-id cache, because the
source guards with a strict `len(userIDs) < 100000`. -/
theorem fkCache_100000_not_loaded :
    (List.replicate 100000 "u").length = 100000 ∧
    articlesPreload (List.replicate 100000 "u") = NewValidator ∧
    (articlesPreload (List.replicate 100000 "u")).userIDCache = [] := by
  have hlen : (List.replicate 100000 "u").length = 100000 :=
    List.length_replicate _ _
  have hpre : articlesPreload (List.replicate 100000 "u") = NewValidator := by
    unfold articlesPreload
    rw [hlen, if_neg (by omega)]
  exact ⟨hlen, hpre, by rw [hpre]; rfl⟩

/-- C6, amended: the FK caches of the articles and comments pipelines are
populated from the enumerated ids exactly when strictly fewer than 100,000
ids were enumerated, and left empty otherwise — at exactly 100,000 entries
the cache stays empty and FK checks are skipped. -/
theorem fkCache_loaded_iff (u a : List String) :
    ((articlesPreload u).userIDCache = if u.length < 100000 then u else []) ∧
    ((commentsPreload u a).userIDCache = if u.length < 100000 then u else []) ∧
    ((commentsPreload u a).articleIDCache = if a.length < 100000 then a else []) := by
  unfold articlesPreload commentsPreload NewValidator Validator.setUserIDCache
    Validator.setArticleIDCache
  split_ifs <;> simp

/-- C7, counterexample: a draft article whose `published_at` is the
non-empty, non-RFC3339 string "not-a-date" and whose other fields are valid
receives two errors, both on `published_at`: the draft cross-field error
and the format error — not exactly one. -/
theorem draft_published_at_two_errors :
    ((ValidateArticle (fun s => s == "11111111-1111-1111-1111-111111111111")
        (fun s => s == "2024-01-01T00:00:00Z") NewValidator
        { id := "11111111-1111-1111-1111-111111111111", slug := "a", title := "t",
          body := "b", author_id := "11111111-1111-1111-1111-111111111111",
          tags := [], status := "draft", published_at := "not-a-date" }) =
      [⟨"published_at", "draft articles must not have published_at", none⟩,
       ⟨"published_at", "invalid ISO 8601 date format", some "not-a-date"⟩]) := by
  decide

/-- C7, amended: for every article with status "draft" and non-empty
`published_at`, the errors on field `published_at` are exactly the
cross-field error "draft articles must not have published_at", followed by
the format error when the value does not parse as RFC 3339; so exactly one
`published_at` error iff the value parses. -/
theorem draft_published_at_errors (uuidOk rfcOk : String → Bool) (v : Validator)
    (a : ArticleNDJSON) (hs : a.status = "draft") (hp : a.published_at ≠ "") :
    (ValidateArticle uuidOk rfcOk v a).filter (fun e => e.field == "published_at") =
      ⟨"published_at", "draft articles must not have published_at", none⟩ ::
      (if rfcOk a.published_at then []
       else [⟨"published_at", "invalid ISO 8601 date format", some a.published_at⟩]) := by
  have hpb : (a.published_at != "") = true := by simp [bne_iff_ne, hp]
  have hdrb : (a.status == "draft") = true := by simp [hs]
  have hkill : ∀ (l : List VErr), (∀ e ∈ l, (e.field == "published_at") = false) →
      l.filter (fun e => e.field == "published_at") = [] := fun l h =>
    List.filter_eq_nil_iff.mpr (fun e he => by simp [h e he])
  unfold ValidateArticle
  simp only [List.filter_append]
  rw [hkill _ (by intro e he; split_ifs at he <;> simp_all),
    hkill _ (by intro e he; split_ifs at he <;> simp_all),
    hkill _ (by intro e he; split_ifs at he <;> simp_all),
    hkill _ (by intro e he; split_ifs at he <;> simp_all),
    hkill _ (by intro e he; split_ifs at he <;> simp_all),
    hkill _ (by intro e he; split_ifs at he <;> simp_all)]
  rw [if_pos (by rw [hdrb, hpb]; rfl), if_pos hpb]
  split_ifs <;> simp_all

/-- Witness for C7: the amended theorem applied to a concrete draft article
with a parseable `published_at` yields the single cross-field error. -/
theorem draft_published_at_errors_witness :
    (ValidateArticle (fun _ => true) (fun _ => true) NewValidator
      { id := "11111111-1111-1111-1111-111111111111", slug := "a", title := "t",
        body := "b", author_id := "11111111-1111-1111-1111-111111111111",
        tags := [], status := "draft",
        published_at := "2024-01-01T00:00:00Z" }).filter
      (fun e => e.field == "published_at") =
      [⟨"published_at", "draft articles must not have published_at", none⟩] := by
  rw [draft_published_at_errors (fun _ => true) (fun _ => true) NewValidator _
    rfl (by decide)]
  decide

/-- C8: the scheduler worker cap and claim exclusivity.  The semaphore
capacity computed by `newJobService` equals max(4, min(32, 4 × CPU count))
for every CPU count; along any history of atomic `MarkJobAsProcessing`
claims at most one claim of a given job observes true, and exactly one does
when the job is pending and some worker attempts it; and every completed
history of semaphore acquires and releases leaves at most capacity-many
slots held, so no more than that many pipelines run concurrently. -/
theorem scheduler_cap_claim_sem :
    (∀ numCPU : Nat, maxWorkersCalc numCPU = max 4 (min 32 (4 * numCPU))) ∧
    (∀ (target : String) (attempts : List String) (st : List SchedJob),
      claimSuccesses target attempts st ≤ 1) ∧
    (∀ (target : String) (attempts : List String) (st : List SchedJob),
      0 < st.countP (fun j => j.id == target && j.status == .pending) →
      target ∈ attempts → claimSuccesses target attempts st = 1) ∧
    (∀ (numCPU : Nat) (events : List Bool) (held : Nat),
      semRun (maxWorkersCalc numCPU) events 0 = some held →
      held ≤ maxWorkersCalc numCPU) := by
  refine ⟨?_, ?_, ?_, ?_⟩
  · intro c
    simp only [maxWorkersCalc]
    split_ifs <;> omega
  · intro target attempts st
    exact claimSuccesses_le_one target attempts st
  · intro target attempts st hpos hmem
    exact claimSuccesses_pending_mem target attempts st hpos hmem
  · intro c evs held hrun
    exact semRun_le (maxWorkersCalc c) evs 0 held (Nat.zero_le _) hrun

/-- Witness for C8: the theorem applied at 8 CPUs, a two-attempt claim
history on one pending job, and a concrete semaphore history. -/
theorem scheduler_cap_claim_sem_witness :
    maxWorkersCalc 8 = max 4 (min 32 (4 * 8)) ∧
    claimSuccesses "j" ["j", "j"] [⟨"j", .pending⟩] = 1 ∧
    (2 : Nat) ≤ maxWorkersCalc 1 :=
  ⟨scheduler_cap_claim_sem.1 8,
   scheduler_cap_claim_sem.2.2.1 "j" ["j", "j"] [⟨"j", .pending⟩] (by decide)
     (by decide),
   scheduler_cap_claim_sem.2.2.2 1 [true, true] 2 (by decide)⟩

/-- C9: `getField` is total and never indexes out of range: when the column
is bound in the header map and its index is strictly inside the row it
returns the whitespace-trimmed cell, and it returns the empty string when
the index is out of range or the column is absent — so short rows are
processed with missing fields seen as empty. -/
theorem getField_total_spec (record : List String) (hm : List (String × Nat))
    (field : String) :
    (∀ idx, lookupHeader hm field = some idx →
      ∀ h : idx < record.length,
        getField record hm field = goTrimSpace (record.get ⟨idx, h⟩)) ∧
    (∀ idx, lookupHeader hm field = some idx → record.length ≤ idx →
      getField record hm field = "") ∧
    (lookupHeader hm field = none → getField record hm field = "") := by
  refine ⟨?_, ?_, ?_⟩
  · intro idx hidx h
    simp [getField, hidx, h]
  · intro idx hidx h
    simp [getField, hidx, Nat.not_lt.mpr h]
  · intro hnone
    simp [getField, hnone]

/-- Witness for C9: the theorem applied to concrete rows covering all three
cases. -/
theorem getField_total_spec_witness :
    getField ["  x"] (buildHeaderMap ["id"]) "id" = "x" ∧
    getField [] (buildHeaderMap ["id"]) "id" = "" ∧
    getField ["y"] (buildHeaderMap ["id"]) "nope" = "" := by
  refine ⟨?_, ?_, ?_⟩
  · rw [(getField_total_spec ["  x"] (buildHeaderMap ["id"]) "id").1 0 (by decide)
      (by decide)]
    decide
  · exact (getField_total_spec [] (buildHeaderMap ["id"]) "id").2.1 0 (by decide)
      (by decide)
  · exact (getField_total_spec ["y"] (buildHeaderMap ["id"]) "nope").2.2 (by decide)

/-- C10: for every comment whose id is "cm_" followed by an arbitrary
(possibly empty) suffix, `ValidateComment` emits no error on the id field,
for every UUID oracle, time oracle, word counter and cache state — the
suffix shape is entirely unconstrained. -/
theorem comment_cm_prefix_no_id_error (uuidOk rfcOk : String → Bool)
    (wordCount : String → Nat) (v : Validator) (c : CommentNDJSON)
    (suffix : String) (h : c.id = "cm_" ++ suffix) :
    (ValidateComment uuidOk rfcOk wordCount v c).filter
      (fun e => e.field == "id") = [] := by
  have hid : (c.id == "") = false := by
    rw [h]; rw [beq_eq_false_iff_ne]; intro he
    have hd := congrArg String.data he
    rw [String.data_append] at hd
    rcases List.append_eq_nil.mp hd with ⟨h1, -⟩
    exact absurd h1 (by decide)
  have hpre : goHasPrefix c.id "cm_" = true := by
    rw [h]; unfold goHasPrefix
    rw [String.data_append, List.isPrefixOf_iff_prefix]
    exact List.prefix_append _ _
  unfold ValidateComment
  rw [if_neg (by simp [hid]), if_neg (by simp [hpre])]
  simp only [List.nil_append]
  split_ifs <;> simp

/-- Witness for C10: the theorem applied to the bare id "cm_". -/
theorem comment_cm_prefix_witness :
    (ValidateComment (fun _ => false) (fun _ => true) (fun _ => 1) NewValidator
      { id := "cm_", article_id := "22222222-2222-2222-2222-222222222222",
        user_id := "33333333-3333-3333-3333-333333333333", body := "hi",
        created_at := "2024-01-01T00:00:00Z" }).filter
      (fun e => e.field == "id") = [] :=
  comment_cm_prefix_no_id_error (fun _ => false) (fun _ => true) (fun _ => 1)
    NewValidator _ "" rfl

end BulkIE
